import Mathlib

/-!
# Verification of the career-learning frontend's client-side derivations

This file gives a shallow embedding of the client-side logic of the
application: the dashboard progress aggregation (`getPathProgress`,
`getCompletedCount`, `getTotalMilestonesCompleted`, the average-progress
expression), the profile statistics derivation (`fetchStats`), the quiz
wizard state (`handleAnswer` / `handleNext` / `handlePrevious` /
`handleSubmit` and the button-disabled conditions), the achievement badge
lookup (`ACHIEVEMENT_DATA` / `AchievementBadge`) and the signup validation
(`Signup.handleSubmit`).

Modelling conventions:
* JavaScript strings are `String`, arrays are `List`, and `Array.find`
  is `List.find?` (first match, `===` is `==`).
* Number arithmetic follows the source's IEEE binary64 evaluation,
  carried out exactly over `ℚ`: `fl` rounds a nonnegative rational to
  the nearest binary64 value (53-bit significand, round to nearest,
  ties to even — exact for the normal range, which covers every
  quotient of array lengths), and each JavaScript arithmetic operation
  applies one `fl` to the exact result of the operation.  Array lengths
  are integers below `2 ^ 32` and hence exact doubles, and sums of such
  integers stay below `2 ^ 53` and are exact, so no `fl` is inserted
  there.  `Math.round` itself is specified exactly over the argument
  double's value (the closest integral value, ties toward positive
  infinity): `jsRound q = ⌊q + 1/2⌋`.
* A JavaScript division by zero produces a non-finite number (`NaN` or
  `Infinity`); functions whose source can produce such a value return an
  `Option`, with `none` standing for the non-finite result.
-/

namespace App

/-- JavaScript `Math.round` on a finite value: floor of `q + 1/2`,
so exact half-integers round toward positive infinity.  The ECMAScript
specification defines `Math.round` over the exact value of its double
argument, with no further floating-point rounding. -/
def jsRound (q : ℚ) : ℤ := ⌊q + 1/2⌋

/-- Round a rational to the nearest integer, ties to even — the rounding
applied to a binary64 significand. -/
def roundEven (q : ℚ) : ℤ :=
  if q - (⌊q⌋ : ℚ) < 1/2 then ⌊q⌋
  else if 1/2 < q - (⌊q⌋ : ℚ) then ⌊q⌋ + 1
  else if 2 ∣ ⌊q⌋ then ⌊q⌋ else ⌊q⌋ + 1

/-- Round a nonnegative rational to the nearest IEEE binary64 double
(round to nearest, ties to even): scale into the 53-bit significand
range by the binade exponent, round, and scale back.  This is the exact
double rounding for values in the normal range, which covers every
quotient and product the modelled code forms. -/
def fl (q : ℚ) : ℚ :=
  if q = 0 then 0
  else (roundEven (q * 2 ^ ((52 : ℤ) - Int.log 2 q)) : ℚ) *
    2 ^ (Int.log 2 q - (52 : ℤ))

/-- A milestone of a career path (identifier and estimated duration). -/
structure Milestone where
  id : String
  estimated_days : Nat
deriving DecidableEq

/-- A career path as consumed by the dashboard: its identifier and its
list of milestones (the fields the modelled functions read). -/
structure CareerPath where
  id : String
  milestones : List Milestone
deriving DecidableEq

/-- A per-user, per-path progress record: which milestone identifiers
are completed. -/
structure ProgressRecord where
  user_id : String
  career_path_id : String
  completed_milestones : List String
deriving DecidableEq

namespace Dashboard

/-- `getPathProgress` from `Dashboard.js` (lines 59-67): find the progress
record for `pathId` (returning 0 when absent), find the catalog entry
(returning 0 when absent), and otherwise compute
`Math.round((completed_milestones.length / milestones.length) * 100)`
as the engine does: the division is rounded to binary64 (`fl`), the
multiplication by 100 is rounded to binary64 (`fl`), and `Math.round`
is exact.  When the matched path has no milestones the JavaScript
division yields a non-finite number (`0/0` is `NaN`, `c/0` is
`Infinity`); that case is returned as `none`. -/
def getPathProgress (userProgress : List ProgressRecord)
    (careerPaths : List CareerPath) (pathId : String) : Option ℤ :=
  match userProgress.find? (fun p => p.career_path_id == pathId) with
  | none => some 0
  | some progress =>
    match careerPaths.find? (fun p => p.id == pathId) with
    | none => some 0
    | some path =>
      if path.milestones.length = 0 then
        none
      else
        some (jsRound (fl (fl ((progress.completed_milestones.length : ℚ) /
          (path.milestones.length : ℚ)) * 100)))

/-- `getCompletedCount` from `Dashboard.js` (lines 69-77): fold over every
progress record, adding 1 whenever the record's path is in the catalog and
the completed-milestone count equals the path's milestone count. -/
def getCompletedCount (userProgress : List ProgressRecord)
    (careerPaths : List CareerPath) : Nat :=
  userProgress.foldl (fun sum p =>
    match careerPaths.find? (fun cp => cp.id == p.career_path_id) with
    | some path =>
      if p.completed_milestones.length = path.milestones.length then
        sum + 1
      else
        sum
    | none => sum) 0

/-- `getTotalMilestonesCompleted` from `Dashboard.js` (lines 79-81). -/
def getTotalMilestonesCompleted (userProgress : List ProgressRecord) : Nat :=
  userProgress.foldl (fun sum p => sum + p.completed_milestones.length) 0

/-- The `reduce` inside the average-progress expression:
`userProgress.reduce((sum, p) => sum + getPathProgress(p.career_path_id), 0)`.
A non-finite summand (`none`) poisons the whole sum, as `NaN` does. -/
def progressSum (userProgress : List ProgressRecord)
    (careerPaths : List CareerPath) (records : List ProgressRecord) :
    Option ℤ :=
  records.foldl (fun sum p =>
    match sum, getPathProgress userProgress careerPaths p.career_path_id with
    | some s, some v => some (s + v)
    | _, _ => none) (some 0)

/-- The average-progress expression from `Dashboard.js` (lines 141-143):
`userProgress.length > 0 ? Math.round(reduce-sum / userProgress.length) : 0`.
The summands are integral doubles and their sum is exact; the final
division is one binary64 rounding (`fl`).  If any summand is non-finite
the whole average is non-finite (`none`). -/
def averageProgress (userProgress : List ProgressRecord)
    (careerPaths : List CareerPath) : Option ℤ :=
  if userProgress.length = 0 then
    some 0
  else
    match progressSum userProgress careerPaths userProgress with
    | none => none
    | some s =>
      some (jsRound (fl ((s : ℚ) / (userProgress.length : ℚ))))

/-- The spec's wording read with `Math.round`'s own tie rule:
`(completed / total) * 100` rounded to the nearest integer with
half-integers rounded up, written as an integer division.  The double
pipeline agrees with this form except possibly at exact half-integer
ratios, where it may round down instead. -/
def roundedPercent (completed total : Nat) : Nat :=
  (200 * completed + total) / (2 * total)

end Dashboard

namespace Profile

/-- The statistics record assembled by the Profile screen. -/
structure ProfileStats where
  totalPaths : Nat
  completedPaths : Nat
  totalMilestones : Nat
  achievementsCount : Nat
  certificatesCount : Nat
deriving DecidableEq

/-- The derivation inside `Profile.fetchStats`: completed paths are the
progress records whose completed-milestone count equals the matching
path's milestone count, and the certificates count is set to that same
number (`certificatesCount: completedPaths`). -/
def fetchStats (progress : List ProgressRecord) (achievements : List String)
    (paths : List CareerPath) : ProfileStats :=
  let completedPaths := (progress.filter (fun p =>
    match paths.find? (fun cp => cp.id == p.career_path_id) with
    | some path => p.completed_milestones.length = path.milestones.length
    | none => false)).length
  let totalMilestones :=
    progress.foldl (fun sum p => sum + p.completed_milestones.length) 0
  { totalPaths := progress.length,
    completedPaths := completedPaths,
    totalMilestones := totalMilestones,
    achievementsCount := achievements.length,
    certificatesCount := completedPaths }

end Profile

namespace Quiz

/-- A quiz question: identifier, prompt and option texts. -/
structure QuizQuestion where
  id : String
  question : String
  options : List String
deriving DecidableEq

/-- One stored answer: the question identifier and the selected option
index (`{ question_id, selected_option }` in `handleAnswer`). -/
structure QuizAnswer where
  question_id : String
  selected_option : Nat
deriving DecidableEq

/-- One recommended path of the submission response payload. -/
structure RecommendedPath where
  path_id : String
  path_name : String
  reason : String
  estimated_weeks : Nat
  score : Nat
deriving DecidableEq

/-- The server response to `POST /api/quiz/submit`, as rendered by the
results branch. -/
structure QuizResults where
  recommended_paths : List RecommendedPath
  learning_style : String
deriving DecidableEq

/-- The `answers` JavaScript array may contain holes below its length
(an element assignment past the end extends the array); a hole and an
out-of-range read both give `undefined`, modelled as `none`. -/
def getSlot (answers : List (Option QuizAnswer)) (i : Nat) :
    Option QuizAnswer :=
  answers.getD i none

/-- JavaScript array element assignment `newAnswers[i] = a`: an in-range
index overwrites the slot; an index past the end extends the array,
filling skipped positions with holes. -/
def setSlot (answers : List (Option QuizAnswer)) (i : Nat) (a : QuizAnswer) :
    List (Option QuizAnswer) :=
  if i < answers.length then
    answers.set i (some a)
  else
    answers ++ List.replicate (i - answers.length) none ++ [some a]

/-- The quiz component state: the fetched question list and the five
`useState` cells (`currentQuestion`, `answers`, `loading`, `submitting`,
`results`). -/
structure QuizState where
  questions : List QuizQuestion
  currentQuestion : Nat
  answers : List (Option QuizAnswer)
  loading : Bool
  submitting : Bool
  results : Option QuizResults
deriving DecidableEq

/-- `handleAnswer(optionIndex)`: write
`{ question_id: questions[currentQuestion].id, selected_option }` into the
answer slot at the current index.  The source reads
`questions[currentQuestion].id`, so the operation presupposes the current
question exists. -/
def handleAnswer (s : QuizState) (optionIndex : Nat)
    (h : s.currentQuestion < s.questions.length) : QuizState :=
  let a : QuizAnswer := ⟨(s.questions.get ⟨s.currentQuestion, h⟩).id, optionIndex⟩
  { s with answers := setSlot s.answers s.currentQuestion a }

/-- `handleNext`: advance the index when below `questions.length - 1`. -/
def handleNext (s : QuizState) : QuizState :=
  if s.currentQuestion < s.questions.length - 1 then
    { s with currentQuestion := s.currentQuestion + 1 }
  else
    s

/-- `handlePrevious`: decrement the index when above 0. -/
def handlePrevious (s : QuizState) : QuizState :=
  if 0 < s.currentQuestion then
    { s with currentQuestion := s.currentQuestion - 1 }
  else
    s

/-- The Previous button's `disabled={currentQuestion === 0}`. -/
def previousDisabled (s : QuizState) : Bool :=
  s.currentQuestion == 0

/-- The Next button's `disabled={!answers[currentQuestion]}`. -/
def nextDisabled (s : QuizState) : Bool :=
  (getSlot s.answers s.currentQuestion).isNone

/-- The Submit button's
`disabled={answers.length !== questions.length || submitting}`. -/
def submitDisabled (s : QuizState) : Bool :=
  s.answers.length != s.questions.length || s.submitting

/-- The outcome of the awaited `POST /api/quiz/submit`. -/
inductive SubmitResponse where
  | ok (payload : QuizResults)
  | err
deriving DecidableEq

/-- `handleSubmit`, with the network outcome passed in explicitly.  The
length guard fires first (`alert` and early return, no state change).
Otherwise `setSubmitting(true)` runs; on success `setResults` stores the
payload (`submitting` is never reset on this branch); on failure an alert
is shown and `setSubmitting(false)` restores the flag, leaving `answers`,
`currentQuestion` and `results` untouched.  The second component is the
alert message shown, if any. -/
def handleSubmit (s : QuizState) (resp : SubmitResponse) :
    QuizState × Option String :=
  if s.answers.length ≠ s.questions.length then
    (s, some "Please answer all questions")
  else
    match resp with
    | .ok payload =>
      ({ s with submitting := true, results := some payload }, none)
    | .err =>
      ({ s with submitting := false },
        some "Failed to submit quiz. Please try again.")

/-- Which of the three render branches of the component is shown. -/
inductive QuizView where
  | loadingView
  | resultsView
  | answeringView
deriving DecidableEq

/-- The component's render dispatch: the loading spinner while `loading`,
the results branch once `results` is non-null, the answering wizard
otherwise. -/
def renderView (s : QuizState) : QuizView :=
  if s.loading then .loadingView
  else if s.results.isSome then .resultsView
  else .answeringView

/-- The `(currentQuestion, answers)` pairs reachable from the initial
answering state (index 0, empty array) by the user-triggerable
operations.  Button-mediated operations only fire when their button is
rendered and enabled: `next` requires the Next button (shown while
`currentQuestion < questions.length - 1`) to be enabled, i.e. the current
slot filled; `prev` requires index above 0; an option click requires the
current question to be rendered.  `handleSubmit` never changes
`currentQuestion` or `answers` (see `handleSubmit`), recorded here as the
identity step `submit`. -/
inductive Reachable (questions : List QuizQuestion) :
    Nat → List (Option QuizAnswer) → Prop where
  | init : Reachable questions 0 []
  | answer {cur answers optionIndex} (h : Reachable questions cur answers)
      (hq : cur < questions.length) :
      Reachable questions cur (setSlot answers cur
        ⟨(questions.get ⟨cur, hq⟩).id, optionIndex⟩)
  | next {cur answers} (h : Reachable questions cur answers)
      (hlt : cur < questions.length - 1)
      (hfilled : (getSlot answers cur).isSome = true) :
      Reachable questions (cur + 1) answers
  | prev {cur answers} (h : Reachable questions cur answers)
      (hpos : 0 < cur) :
      Reachable questions (cur - 1) answers
  | submit {cur answers} (h : Reachable questions cur answers) :
      Reachable questions cur answers

end Quiz

namespace Achievements

/-- The static display metadata of one achievement. -/
structure AchievementInfo where
  name : String
  description : String
  icon : String
  color : String
deriving DecidableEq

/-- The own property names of `Object.prototype`.  A plain-object read
`obj[key]` that misses the object's own keys falls back to these
inherited properties (methods and the `__proto__` accessor), every one
of which yields a truthy value, not `undefined`. -/
def OBJECT_PROTOTYPE_KEYS : List String :=
  ["constructor", "hasOwnProperty", "isPrototypeOf", "propertyIsEnumerable",
   "toLocaleString", "toString", "valueOf", "__defineGetter__",
   "__defineSetter__", "__lookupGetter__", "__lookupSetter__", "__proto__"]

/-- The result of the JavaScript property read `ACHIEVEMENT_DATA[key]`:
an own entry of the object literal, a truthy value inherited from
`Object.prototype`, or `undefined`. -/
inductive JsProp where
  | entry (a : AchievementInfo)
  | inherited
  | missing
deriving DecidableEq

/-- The `ACHIEVEMENT_DATA[achievementId]` read from `AchievementBadge`:
the five own keys of the object literal map to their static metadata;
any other key is looked up on the prototype chain, so the own property
names of `Object.prototype` yield an inherited truthy value and only the
remaining keys give `undefined`. -/
def ACHIEVEMENT_DATA (achievementId : String) : JsProp :=
  if achievementId = "first_step" then
    .entry { name := "First Step", description := "Complete your first milestone",
             icon := "🎯", color := "#10B981" }
  else if achievementId = "halfway_hero" then
    .entry { name := "Halfway Hero", description := "Complete 50% of a career path",
             icon := "🚀", color := "#3B82F6" }
  else if achievementId = "path_master" then
    .entry { name := "Path Master", description := "Complete an entire career path",
             icon := "👑", color := "#F59E0B" }
  else if achievementId = "speed_demon" then
    .entry { name := "Speed Demon", description := "Complete a path in record time",
             icon := "⚡", color := "#EF4444" }
  else if achievementId = "multi_path" then
    .entry { name := "Multi-Path Master", description := "Complete 3 different career paths",
             icon := "🌟", color := "#8B5CF6" }
  else if OBJECT_PROTOTYPE_KEYS.contains achievementId then
    .inherited
  else
    .missing

/-- What the `AchievementBadge` component renders for a known identifier. -/
structure BadgeRender where
  color : String
  title : String
  icon : String
  showInfo : Bool
  showDescription : Bool
  name : String
  description : String
deriving DecidableEq

/-- What the `AchievementBadge` component returns: `null`, a badge
rendered from a table entry, or — when the lookup hit a truthy
`Object.prototype` property — a badge whose display fields are all
`undefined`. -/
inductive BadgeOutput where
  | nullRender
  | badge (b : BadgeRender)
  | inheritedBadge
deriving DecidableEq

/-- The `AchievementBadge` component: read `ACHIEVEMENT_DATA[achievementId]`
and return `null` only when the read is falsy (`undefined`); a table
entry renders the badge with the entry's color, tooltip title, icon and
(size-dependent) name and description, while a truthy inherited
prototype property also passes the guard and renders a badge with
`undefined` display data. -/
def AchievementBadge (achievementId : String) (size : String)
    (showTooltip : Bool) : BadgeOutput :=
  match ACHIEVEMENT_DATA achievementId with
  | .missing => .nullRender
  | .inherited => .inheritedBadge
  | .entry a =>
    .badge { color := a.color,
             title := if showTooltip then a.name ++ ": " ++ a.description else "",
             icon := a.icon,
             showInfo := size != "small",
             showDescription := size == "large",
             name := a.name,
             description := a.description }

end Achievements

namespace Signup

/-- The observable outcome of the synchronous prefix of
`Signup.handleSubmit`: the inline error set (if any), the value of the
loading flag when the prefix finishes, and whether the signup request was
issued. -/
structure SignupAttempt where
  error : Option String
  loading : Bool
  requested : Bool
deriving DecidableEq

/-- The validation prefix of `Signup.handleSubmit` (identical in
`Signup.js` and the redesigned variant): clear the error; if the password
and confirmation differ, set the mismatch message and return; if the
password is shorter than 6 characters, set the length message and return;
only otherwise set `loading` and issue the signup request. -/
def handleSubmit (password confirmPassword : String) : SignupAttempt :=
  if password ≠ confirmPassword then
    { error := some "Passwords do not match", loading := false,
      requested := false }
  else if password.length < 6 then
    { error := some "Password must be at least 6 characters", loading := false,
      requested := false }
  else
    { error := none, loading := true, requested := true }

end Signup

/-! ### Concrete instances used by witnesses and counterexamples -/

/-- A career path with 200 milestones (the milestone identifier is not
consulted by the percentage computation, only the count). -/
def cexPath : CareerPath :=
  { id := "p", milestones := List.replicate 200 { id := "m0", estimated_days := 1 } }

/-- A progress record for `cexPath` with 199 completed milestones, each a
member of the path's milestone list. -/
def cexRecord : ProgressRecord :=
  { user_id := "u", career_path_id := "p",
    completed_milestones := List.replicate 199 "m0" }

/-- A one-milestone path. -/
def onePath : CareerPath :=
  { id := "p", milestones := [{ id := "m1", estimated_days := 1 }] }

/-- A progress record completing all of `onePath`. -/
def oneRecord : ProgressRecord :=
  { user_id := "u", career_path_id := "p", completed_milestones := ["m1"] }

/-- The spec's worked example: career paths with milestone counts 4, 5
and 2. -/
def exPaths : List CareerPath :=
  [{ id := "p1", milestones := [⟨"a1", 1⟩, ⟨"a2", 1⟩, ⟨"a3", 1⟩, ⟨"a4", 1⟩] },
   { id := "p2", milestones := [⟨"b1", 1⟩, ⟨"b2", 1⟩, ⟨"b3", 1⟩, ⟨"b4", 1⟩, ⟨"b5", 1⟩] },
   { id := "p3", milestones := [⟨"c1", 1⟩, ⟨"c2", 1⟩] }]

/-- The spec's worked example: one progress record per path, completing
4, 2 and 2 milestones respectively. -/
def exProgress : List ProgressRecord :=
  [{ user_id := "u", career_path_id := "p1",
     completed_milestones := ["a1", "a2", "a3", "a4"] },
   { user_id := "u", career_path_id := "p2",
     completed_milestones := ["b1", "b2"] },
   { user_id := "u", career_path_id := "p3",
     completed_milestones := ["c1", "c2"] }]

/-- A catalog path the example user never started. -/
def exExtraPath : CareerPath :=
  { id := "p4", milestones := [⟨"d1", 1⟩] }

/-- A career path with 40 milestones. -/
def cex40Path : CareerPath :=
  { id := "p", milestones := List.replicate 40 { id := "x", estimated_days := 1 } }

/-- A progress record for `cex40Path` with 23 completed milestones. -/
def cex40Record : ProgressRecord :=
  { user_id := "u", career_path_id := "p",
    completed_milestones := List.replicate 23 "x" }

/-- A two-milestone path. -/
def twoPath : CareerPath :=
  { id := "p", milestones := [{ id := "m1", estimated_days := 1 },
                              { id := "m2", estimated_days := 1 }] }

/-- A progress record completing one of the two milestones of `twoPath`. -/
def halfRecord : ProgressRecord :=
  { user_id := "u", career_path_id := "p", completed_milestones := ["m1"] }

/-- A two-question quiz. -/
def wQuestions : List Quiz.QuizQuestion :=
  [{ id := "q1", question := "Q1", options := ["o1", "o2"] },
   { id := "q2", question := "Q2", options := ["o1", "o2"] }]

/-- A one-question quiz state with its single slot answered, ready to
submit. -/
def wState : Quiz.QuizState :=
  { questions := [{ id := "q1", question := "Q1", options := ["o1"] }],
    currentQuestion := 0,
    answers := [some { question_id := "q1", selected_option := 0 }],
    loading := false, submitting := false, results := none }

/-- A sample recommendation payload. -/
def wPayload : Quiz.QuizResults :=
  { recommended_paths := [], learning_style := "video" }

/-! ### Arithmetic lemmas about the binary64 rounding model -/

/-- `roundEven` lands within one half of its argument. -/
lemma abs_roundEven_sub_le (q : ℚ) : |(roundEven q : ℚ) - q| ≤ 1/2 := by
  have h1 : ((⌊q⌋ : ℤ) : ℚ) ≤ q := Int.floor_le q
  have h2 : q < ((⌊q⌋ : ℤ) : ℚ) + 1 := Int.lt_floor_add_one q
  unfold roundEven
  split_ifs with ha hb hc <;>
    (rw [abs_le]; push_cast; simp only [not_lt] at *; constructor <;> linarith)

/-- Characterize `Int.log 2` on `ℚ` by the enclosing binade. -/
lemma log2_eq {q : ℚ} {e : ℤ} (hq : 0 < q)
    (h1 : (2 : ℚ) ^ e ≤ q) (h2 : q < (2 : ℚ) ^ (e + 1)) :
    Int.log 2 q = e := by
  have ha : ((2 : ℕ) : ℚ) ^ Int.log 2 q ≤ q :=
    Int.zpow_log_le_self (by norm_num) hq
  have hb : q < ((2 : ℕ) : ℚ) ^ (Int.log 2 q + 1) :=
    Int.lt_zpow_succ_log_self (by norm_num) q
  rw [show ((2 : ℕ) : ℚ) = (2 : ℚ) by norm_num] at ha hb
  have h3 : (2 : ℚ) ^ Int.log 2 q < (2 : ℚ) ^ (e + 1) := lt_of_le_of_lt ha h2
  have h4 : (2 : ℚ) ^ e < (2 : ℚ) ^ (Int.log 2 q + 1) := lt_of_le_of_lt h1 hb
  have h5 := (zpow_lt_zpow_iff_right₀ (by norm_num : (1 : ℚ) < 2)).mp h3
  have h6 := (zpow_lt_zpow_iff_right₀ (by norm_num : (1 : ℚ) < 2)).mp h4
  omega

/-- Evaluate `fl` from an explicit binade and significand rounding. -/
lemma fl_eq_of {q : ℚ} {e n : ℤ} (hq : 0 < q)
    (h1 : (2 : ℚ) ^ e ≤ q) (h2 : q < (2 : ℚ) ^ (e + 1))
    (hn : roundEven (q * 2 ^ ((52 : ℤ) - e)) = n) :
    fl q = (n : ℚ) * 2 ^ (e - (52 : ℤ)) := by
  unfold fl
  rw [if_neg (ne_of_gt hq), log2_eq hq h1 h2, hn]

/-- One binary64 rounding has relative error at most `2 ^ (-53)`. -/
lemma abs_fl_sub_le {q : ℚ} (hq : 0 ≤ q) :
    |fl q - q| ≤ q * (2 : ℚ) ^ (-(53 : ℤ)) := by
  rcases eq_or_lt_of_le hq with h0 | h0
  · rw [← h0]
    simp [fl]
  · have hne : q ≠ 0 := ne_of_gt h0
    have h1 : (2 : ℚ) ^ Int.log 2 q ≤ q := by
      have := Int.zpow_log_le_self (b := 2) (R := ℚ) (by norm_num) h0
      rwa [show ((2 : ℕ) : ℚ) = (2 : ℚ) by norm_num] at this
    unfold fl
    rw [if_neg hne]
    set e := Int.log 2 q with he
    set y := q * (2 : ℚ) ^ ((52 : ℤ) - e) with hy
    have hpow : (0 : ℚ) < (2 : ℚ) ^ (e - (52 : ℤ)) := by positivity
    have hqy : y * (2 : ℚ) ^ (e - (52 : ℤ)) = q := by
      rw [hy, mul_assoc, ← zpow_add₀ (by norm_num : (2 : ℚ) ≠ 0)]
      norm_num
    have key : (roundEven y : ℚ) * 2 ^ (e - (52 : ℤ)) - q =
        ((roundEven y : ℚ) - y) * 2 ^ (e - (52 : ℤ)) := by
      rw [sub_mul, hqy]
    rw [key, abs_mul, abs_of_pos hpow]
    have hre := abs_roundEven_sub_le y
    calc |(roundEven y : ℚ) - y| * 2 ^ (e - (52 : ℤ))
        ≤ (1 / 2) * 2 ^ (e - (52 : ℤ)) :=
          mul_le_mul_of_nonneg_right hre (le_of_lt hpow)
      _ = (2 : ℚ) ^ e * (2 : ℚ) ^ (-(53 : ℤ)) := by
          rw [show (1 / 2 : ℚ) = (2 : ℚ) ^ (-(1 : ℤ)) by norm_num,
            ← zpow_add₀ (by norm_num : (2 : ℚ) ≠ 0),
            ← zpow_add₀ (by norm_num : (2 : ℚ) ≠ 0)]
          congr 1
          ring
      _ ≤ q * (2 : ℚ) ^ (-(53 : ℤ)) :=
          mul_le_mul_of_nonneg_right h1 (by positivity)

/-- Binary64 rounding preserves nonnegativity. -/
lemma fl_nonneg {q : ℚ} (hq : 0 ≤ q) : 0 ≤ fl q := by
  have h := abs_fl_sub_le hq
  rw [abs_le] at h
  have hone : q * (2 : ℚ) ^ (-(53 : ℤ)) ≤ q :=
    mul_le_of_le_one_right hq (by norm_num)
  linarith [h.1]

/-- The double pipeline `fl (fl (c / m) * 100)` stays within relative
error `2 ^ (-51)` of the exact percentage. -/
lemma pipeline_close (c m : ℕ) :
    |fl (fl ((c : ℚ) / (m : ℚ)) * 100) - (c : ℚ) / (m : ℚ) * 100| ≤
      ((c : ℚ) / (m : ℚ) * 100) * (2 : ℚ) ^ (-(51 : ℤ)) := by
  set q0 : ℚ := (c : ℚ) / (m : ℚ) with hq0def
  set ε : ℚ := (2 : ℚ) ^ (-(53 : ℤ)) with hεdef
  have hq0 : 0 ≤ q0 := by positivity
  have hε : 0 < ε := by rw [hεdef]; positivity
  have e1 := abs_fl_sub_le hq0
  have hd1 : 0 ≤ fl q0 := fl_nonneg hq0
  have e2 := abs_fl_sub_le (q := fl q0 * 100) (by positivity)
  rw [abs_le] at e1 e2
  rw [← hεdef] at e1 e2
  have hB : fl q0 * (100 * ε) ≤ (q0 + q0 * ε) * (100 * ε) := by
    have hd1ub : fl q0 ≤ q0 + q0 * ε := by linarith [e1.2]
    exact mul_le_mul_of_nonneg_right hd1ub (by positivity)
  have hkey : q0 * 100 * (2 * ε + ε * ε) ≤
      q0 * 100 * (2 : ℚ) ^ (-(51 : ℤ)) := by
    apply mul_le_mul_of_nonneg_left _ (by positivity)
    rw [hεdef]
    norm_num
  rw [abs_le]
  constructor
  · nlinarith [e2.1, hB, e1.1, hq0, hε.le, hkey]
  · nlinarith [e2.2, hB, e1.2, hq0, hε.le, hkey]

/-- The program's rounded percentage is a nearest integer to the exact
percentage, provided the completed count respects the JavaScript
array-length bound `2 ^ 32`. -/
lemma jsPercent_nearest (c m : ℕ) (hm : m ≠ 0) (hc : c < 2 ^ 32) :
    |((jsRound (fl (fl ((c : ℚ) / (m : ℚ)) * 100)) : ℤ) : ℚ) -
      (c : ℚ) / (m : ℚ) * 100| ≤ 1 / 2 := by
  have hmQ : (0 : ℚ) < (m : ℚ) := by
    exact_mod_cast Nat.pos_of_ne_zero hm
  have hclose := pipeline_close c m
  rw [abs_le] at hclose
  set t : ℚ := (c : ℚ) / (m : ℚ) * 100 with htdef
  set d2 : ℚ := fl (fl ((c : ℚ) / (m : ℚ)) * 100) with hd2def
  have ht2m : t * (2 * m) = 200 * c := by
    rw [htdef]
    field_simp
    ring
  have hδ : t * (2 : ℚ) ^ (-(51 : ℤ)) * (2 * m) < 1 := by
    have hcQ : (c : ℚ) < 2 ^ 32 := by exact_mod_cast hc
    have hre : t * (2 : ℚ) ^ (-(51 : ℤ)) * (2 * m) =
        200 * c * (2 : ℚ) ^ (-(51 : ℤ)) := by
      rw [mul_right_comm, ht2m]
    rw [hre, show (2 : ℚ) ^ (-(51 : ℤ)) = 1 / 2251799813685248 by norm_num]
    nlinarith [hcQ]
  set v : ℤ := jsRound d2 with hvdef
  have hv_up : (v : ℚ) ≤ d2 + 1 / 2 := by
    rw [hvdef]
    unfold jsRound
    exact_mod_cast Int.floor_le (d2 + 1 / 2)
  have hv_lo : d2 - 1 / 2 < (v : ℚ) := by
    rw [hvdef]
    unfold jsRound
    have h := Int.lt_floor_add_one (d2 + 1 / 2)
    push_cast at h ⊢
    linarith
  have htpos : 0 ≤ t := by rw [htdef]; positivity
  have hδ0 : (0 : ℚ) ≤ t * (2 : ℚ) ^ (-(51 : ℤ)) := by positivity
  rw [abs_le]
  constructor
  · by_contra hcon
    push_neg at hcon
    have hi1 : 2 * (m : ℚ) * v < 200 * c - m := by nlinarith [hcon, hmQ, ht2m]
    have hi2 : (200 : ℚ) * c - m - 1 < 2 * (m : ℚ) * v := by
      nlinarith [hv_lo, hclose.1, hδ, hmQ, ht2m]
    have hi1Z : 2 * (m : ℤ) * v < 200 * c - m := by exact_mod_cast hi1
    have hi2Z : (200 : ℤ) * c - m - 1 < 2 * (m : ℤ) * v := by exact_mod_cast hi2
    omega
  · by_contra hcon
    push_neg at hcon
    have hi1 : (200 : ℚ) * c + m < 2 * (m : ℚ) * v := by
      nlinarith [hcon, hmQ, ht2m]
    have hi2 : 2 * (m : ℚ) * v < 200 * c + m + 1 := by
      nlinarith [hv_up, hclose.2, hδ, hmQ, ht2m]
    have hi1Z : (200 : ℤ) * c + m < 2 * (m : ℤ) * v := by exact_mod_cast hi1
    have hi2Z : 2 * (m : ℤ) * v < 200 * c + m + 1 := by exact_mod_cast hi2
    omega

/-- The program's percentage is never negative. -/
lemma jsPercent_nonneg (c m : ℕ) :
    0 ≤ jsRound (fl (fl ((c : ℚ) / (m : ℚ)) * 100)) := by
  have h1 : (0 : ℚ) ≤ fl (fl ((c : ℚ) / (m : ℚ)) * 100) := by
    apply fl_nonneg
    have := fl_nonneg (q := (c : ℚ) / (m : ℚ)) (by positivity)
    positivity
  unfold jsRound
  rw [Int.floor_nonneg]
  linarith

/-- Under the subset precondition the program's percentage is at most
100. -/
lemma jsPercent_le_100 (c m : ℕ) (hm : m ≠ 0) (hcm : c ≤ m) :
    jsRound (fl (fl ((c : ℚ) / (m : ℚ)) * 100)) ≤ 100 := by
  have hmQ : (0 : ℚ) < (m : ℚ) := by
    exact_mod_cast Nat.pos_of_ne_zero hm
  have ht : (c : ℚ) / (m : ℚ) * 100 ≤ 100 := by
    have h1 : (c : ℚ) / (m : ℚ) ≤ 1 := by
      rw [div_le_one hmQ]
      exact_mod_cast hcm
    nlinarith
  have htpos : (0 : ℚ) ≤ (c : ℚ) / (m : ℚ) * 100 := by positivity
  have hclose := pipeline_close c m
  rw [abs_le] at hclose
  have hδub : (c : ℚ) / (m : ℚ) * 100 * (2 : ℚ) ^ (-(51 : ℤ)) ≤
      100 * (2 : ℚ) ^ (-(51 : ℤ)) :=
    mul_le_mul_of_nonneg_right ht (by positivity)
  have hd2 : fl (fl ((c : ℚ) / (m : ℚ)) * 100) < 201 / 2 := by
    rw [show (2 : ℚ) ^ (-(51 : ℤ)) = 1 / 2251799813685248 by norm_num] at hδub
    linarith [hclose.2]
  unfold jsRound
  have hfloor : ⌊fl (fl ((c : ℚ) / (m : ℚ)) * 100) + 1 / 2⌋ < 101 := by
    rw [Int.floor_lt]
    push_cast
    linarith
  omega

/-- The one ratio on the 99.5 boundary: the double pipeline at `199/200`
lands exactly on `99.5` (the division rounds up to the double
`8962163258467287 / 2 ^ 53`, whose product with 100 rounds up to exactly
`99.5`). -/
lemma fl_pipeline_tie : fl (fl ((199 : ℚ) / 200) * 100) = 199 / 2 := by
  have h1 : fl ((199 : ℚ) / 200) =
      (8962163258467287 : ℚ) * (2 : ℚ) ^ ((-1 : ℤ) - (52 : ℤ)) :=
    fl_eq_of (e := -1) (n := 8962163258467287) (by norm_num) (by norm_num)
      (by norm_num) (by unfold roundEven; norm_num)
  rw [h1]
  have h2 : fl ((8962163258467287 : ℚ) * (2 : ℚ) ^ ((-1 : ℤ) - (52 : ℤ)) * 100) =
      (7001690045677568 : ℚ) * (2 : ℚ) ^ ((6 : ℤ) - (52 : ℤ)) :=
    fl_eq_of (e := 6) (n := 7001690045677568) (by norm_num) (by norm_num)
      (by norm_num) (by unfold roundEven; norm_num)
  rw [h2]
  norm_num

/-- The double pipeline at `23/40`: the division rounds down to
`5179139571476070 / 2 ^ 53`, the product with 100 stays strictly below
the exact `57.5`, and `Math.round` therefore returns 57. -/
lemma pct_23_40 : jsRound (fl (fl ((23 : ℚ) / 40) * 100)) = 57 := by
  have h1 : fl ((23 : ℚ) / 40) =
      (5179139571476070 : ℚ) * (2 : ℚ) ^ ((-1 : ℤ) - (52 : ℤ)) :=
    fl_eq_of (e := -1) (n := 5179139571476070) (by norm_num) (by norm_num)
      (by norm_num) (by unfold roundEven; norm_num)
  rw [h1]
  have h2 : fl ((5179139571476070 : ℚ) * (2 : ℚ) ^ ((-1 : ℤ) - (52 : ℤ)) * 100) =
      (8092405580431359 : ℚ) * (2 : ℚ) ^ ((5 : ℤ) - (52 : ℤ)) :=
    fl_eq_of (e := 5) (n := 8092405580431359) (by norm_num) (by norm_num)
      (by norm_num) (by unfold roundEven; norm_num)
  rw [h2]
  unfold jsRound
  norm_num

/-- The double pipeline at `199/200` rounds to 100 although the counts
differ. -/
lemma pct_tie : jsRound (fl (fl ((199 : ℚ) / 200) * 100)) = 100 := by
  rw [fl_pipeline_tie]
  unfold jsRound
  norm_num

/-- `fl` is exact on 1. -/
lemma fl_one : fl (1 : ℚ) = 1 := by
  have h := fl_eq_of (q := (1 : ℚ)) (e := 0) (n := 4503599627370496)
    (by norm_num) (by norm_num) (by norm_num)
    (by unfold roundEven; norm_num)
  rw [h]
  norm_num

/-- `fl` is exact on 100. -/
lemma fl_hundred : fl (100 : ℚ) = 100 := by
  have h := fl_eq_of (q := (100 : ℚ)) (e := 6) (n := 7036874417766400)
    (by norm_num) (by norm_num) (by norm_num)
    (by unfold roundEven; norm_num)
  rw [h]
  norm_num

/-- `fl` is exact on 80. -/
lemma fl_eighty : fl (80 : ℚ) = 80 := by
  have h := fl_eq_of (q := (80 : ℚ)) (e := 6) (n := 5629499534213120)
    (by norm_num) (by norm_num) (by norm_num)
    (by unfold roundEven; norm_num)
  rw [h]
  norm_num

/-- The pipeline on a fully completed path: exactly 100. -/
lemma pct_one : jsRound (fl (fl (1 : ℚ) * 100)) = 100 := by
  rw [fl_one, one_mul, fl_hundred]
  unfold jsRound
  norm_num

/-- The double pipeline at `2/5`: the division rounds up to
`7205759403792794 / 2 ^ 54`, and the product with 100 rounds back down
to exactly 40. -/
lemma pct_two_fifths : jsRound (fl (fl ((2 : ℚ) / 5) * 100)) = 40 := by
  have h1 : fl ((2 : ℚ) / 5) =
      (7205759403792794 : ℚ) * (2 : ℚ) ^ ((-2 : ℤ) - (52 : ℤ)) :=
    fl_eq_of (e := -2) (n := 7205759403792794) (by norm_num) (by norm_num)
      (by norm_num) (by unfold roundEven; norm_num)
  rw [h1]
  have h2 : fl ((7205759403792794 : ℚ) * (2 : ℚ) ^ ((-2 : ℤ) - (52 : ℤ)) * 100) =
      (5629499534213120 : ℚ) * (2 : ℚ) ^ ((5 : ℤ) - (52 : ℤ)) :=
    fl_eq_of (e := 5) (n := 5629499534213120) (by norm_num) (by norm_num)
      (by norm_num) (by unfold roundEven; norm_num)
  rw [h2]
  unfold jsRound
  norm_num

/-- Under the subset precondition (and the array-length bound) the
program's percentage equals 100 exactly when the scaled completed count
reaches the 99.5% threshold. -/
lemma jsPercent_eq_100_iff (c m : ℕ) (hm : m ≠ 0) (hcm : c ≤ m)
    (hc : c < 2 ^ 32) :
    jsRound (fl (fl ((c : ℚ) / (m : ℚ)) * 100)) = 100 ↔
      200 * m ≤ 200 * c + m := by
  have hmQ : (0 : ℚ) < (m : ℚ) := by
    exact_mod_cast Nat.pos_of_ne_zero hm
  have hnear := jsPercent_nearest c m hm hc
  rw [abs_le] at hnear
  constructor
  · intro h100
    rw [h100] at hnear
    -- 100 - t ≤ 1/2, so t ≥ 199/2, so 200c ≥ 199m
    have ht : (199 : ℚ) / 2 ≤ (c : ℚ) / (m : ℚ) * 100 := by
      push_cast at hnear
      linarith [hnear.2]
    have hcross : (199 : ℚ) * m ≤ 200 * c := by
      rw [div_mul_eq_mul_div, le_div_iff₀ hmQ] at ht
      linarith
    have hZ : 199 * m ≤ 200 * c := by exact_mod_cast hcross
    omega
  · intro hge
    have h199 : 199 * m ≤ 200 * c := by omega
    rcases lt_or_eq_of_le h199 with hgt | heq
    · have hle100 := jsPercent_le_100 c m hm hcm
      have htQ : (199 : ℚ) / 2 < (c : ℚ) / (m : ℚ) * 100 := by
        have hcQ : (199 : ℚ) * m < 200 * c := by exact_mod_cast hgt
        rw [div_mul_eq_mul_div, lt_div_iff₀ hmQ]
        linarith
      have h99 : (99 : ℚ) <
          ((jsRound (fl (fl ((c : ℚ) / (m : ℚ)) * 100)) : ℤ) : ℚ) := by
        linarith [hnear.1]
      have h99Z : (99 : ℤ) < jsRound (fl (fl ((c : ℚ) / (m : ℚ)) * 100)) := by
        exact_mod_cast h99
      omega
    · have hq0 : (c : ℚ) / (m : ℚ) = 199 / 200 := by
        rw [div_eq_div_iff hmQ.ne' (by norm_num : (200 : ℚ) ≠ 0)]
        have : (199 : ℚ) * m = 200 * c := by exact_mod_cast heq
        linarith
      rw [hq0, pct_tie]

/-- A fold whose step adds at most one is bounded by the accumulator plus
the list length. -/
lemma foldl_le_length {α : Type} (f : ℕ → α → ℕ)
    (hf : ∀ acc x, f acc x ≤ acc + 1) :
    ∀ (l : List α) (acc : ℕ), l.foldl f acc ≤ acc + l.length := by
  intro l
  induction l with
  | nil => intro acc; simp
  | cons x l ih =>
    intro acc
    rw [List.foldl_cons, List.length_cons]
    refine le_trans (ih (f acc x)) ?_
    have := hf acc x
    omega

/-- `getCompletedCount` is bounded by the number of progress records. -/
lemma getCompletedCount_le_length (userProgress : List ProgressRecord)
    (careerPaths : List CareerPath) :
    Dashboard.getCompletedCount userProgress careerPaths ≤ userProgress.length := by
  unfold Dashboard.getCompletedCount
  have h := foldl_le_length (α := ProgressRecord)
    (fun sum p =>
      match careerPaths.find? (fun cp => cp.id == p.career_path_id) with
      | some path =>
        if p.completed_milestones.length = path.milestones.length then
          sum + 1
        else
          sum
      | none => sum)
    (by
      intro acc p
      simp only []
      split
      · split <;> omega
      · omega)
    userProgress 0
  simpa using h

/-! ### Lemmas about the quiz answer array -/

/-- A read at or past the array length gives `undefined`. -/
lemma getSlot_eq_none_of_le {answers : List (Option Quiz.QuizAnswer)} {i : Nat}
    (h : answers.length ≤ i) : Quiz.getSlot answers i = none := by
  unfold Quiz.getSlot
  rw [List.getD_eq_getElem?_getD, List.getElem?_eq_none h]
  rfl

/-- A defined slot lies strictly inside the array. -/
lemma lt_length_of_getSlot_isSome {answers : List (Option Quiz.QuizAnswer)}
    {i : Nat} (h : (Quiz.getSlot answers i).isSome = true) :
    i < answers.length := by
  by_contra hc
  rw [getSlot_eq_none_of_le (le_of_not_lt hc)] at h
  simp at h

/-- The length after an element assignment. -/
lemma length_setSlot (answers : List (Option Quiz.QuizAnswer)) (i : Nat)
    (a : Quiz.QuizAnswer) :
    (Quiz.setSlot answers i a).length = max answers.length (i + 1) := by
  unfold Quiz.setSlot
  split
  · rw [List.length_set]
    omega
  · simp only [List.length_append, List.length_replicate, List.length_cons,
      List.length_nil]
    omega

/-- Reading back the assigned slot (for an assignment at or below the
length, which is the only kind the wizard performs). -/
lemma getSlot_setSlot_self (answers : List (Option Quiz.QuizAnswer)) (i : Nat)
    (a : Quiz.QuizAnswer) (hi : i ≤ answers.length) :
    Quiz.getSlot (Quiz.setSlot answers i a) i = some a := by
  unfold Quiz.setSlot Quiz.getSlot
  split
  · rw [List.getD_eq_getElem?_getD, List.getElem?_set_self (by assumption)]
    rfl
  · have hi' : i = answers.length := by omega
    subst hi'
    simp only [Nat.sub_self, List.replicate_zero, List.append_nil,
      List.getD_eq_getElem?_getD, List.getElem?_concat_length]
    rfl

/-- Reading any other slot is unchanged (again for an assignment at or
below the length). -/
lemma getSlot_setSlot_ne (answers : List (Option Quiz.QuizAnswer)) (i : Nat)
    (a : Quiz.QuizAnswer) (j : Nat) (hj : j ≠ i) (hi : i ≤ answers.length) :
    Quiz.getSlot (Quiz.setSlot answers i a) j = Quiz.getSlot answers j := by
  unfold Quiz.setSlot Quiz.getSlot
  split
  · rw [List.getD_eq_getElem?_getD, List.getD_eq_getElem?_getD,
      List.getElem?_set_ne (Ne.symm hj)]
  · have hi' : i = answers.length := by omega
    subst hi'
    simp only [Nat.sub_self, List.replicate_zero, List.append_nil,
      List.getD_eq_getElem?_getD]
    rcases lt_or_ge j answers.length with hlt | hge
    · rw [List.getElem?_append_left hlt]
    · have hgt : answers.length + 1 ≤ j := by omega
      rw [List.getElem?_eq_none (by simpa using hgt),
        List.getElem?_eq_none hge]

/-- The wizard invariant: in every reachable answering state the current
index never exceeds the array length, the array never outgrows the
question list, and the array has no holes. -/
lemma reachable_inv {questions : List Quiz.QuizQuestion} {cur : Nat}
    {answers : List (Option Quiz.QuizAnswer)}
    (h : Quiz.Reachable questions cur answers) :
    cur ≤ answers.length ∧ answers.length ≤ questions.length ∧
      ∀ j < answers.length, (Quiz.getSlot answers j).isSome = true := by
  induction h with
  | init =>
    refine ⟨Nat.le_refl 0, by simp, ?_⟩
    intro j hj
    simp at hj
  | @answer cur answers optionIndex hre hq ih =>
    obtain ⟨h1, h2, h3⟩ := ih
    refine ⟨?_, ?_, ?_⟩
    · rw [length_setSlot]
      omega
    · rw [length_setSlot]
      omega
    · intro j hj
      rw [length_setSlot, lt_max_iff] at hj
      rcases eq_or_ne j cur with rfl | hne
      · rw [getSlot_setSlot_self _ _ _ h1]
        rfl
      · rw [getSlot_setSlot_ne _ _ _ _ hne h1]
        refine h3 j ?_
        omega
  | @next cur answers hre hlt hfilled ih =>
    obtain ⟨h1, h2, h3⟩ := ih
    have hcur := lt_length_of_getSlot_isSome hfilled
    exact ⟨by omega, h2, h3⟩
  | @prev cur answers hre hpos ih =>
    obtain ⟨h1, h2, h3⟩ := ih
    exact ⟨by omega, h2, h3⟩
  | submit hre ih => exact ih

/-! ### Claim theorems -/

/-- **C1** (amended).  For a progress record and a catalog path matched by
`getPathProgress`, when the path has at least one milestone (otherwise the
JavaScript division is non-finite), its milestone list respects the
JavaScript array-length bound `2 ^ 32`, and the record's completed list
is a duplicate-free subset of the path's milestone identifiers (the §3
precondition), the returned percentage lies in [0, 100], and it equals
100 exactly when `200·completed + total ≥ 200·total`; count equality
implies 100, but the converse of the original claim fails (see the
counterexample with 199 of 200 milestones, whose double pipeline lands
exactly on 99.5 and is rounded up). -/
theorem getPathProgress_range_and_100 (up : List ProgressRecord)
    (cp : List CareerPath) (pid : String) (pr : ProgressRecord)
    (path : CareerPath)
    (hpr : up.find? (fun p => p.career_path_id == pid) = some pr)
    (hpath : cp.find? (fun p => p.id == pid) = some path)
    (hm : path.milestones ≠ [])
    (hsize : path.milestones.length < 2 ^ 32)
    (hsub : ∀ x ∈ pr.completed_milestones,
      x ∈ path.milestones.map (fun m => m.id))
    (hnd : pr.completed_milestones.Nodup) :
    ∃ v : ℤ, Dashboard.getPathProgress up cp pid = some v ∧
      0 ≤ v ∧ v ≤ 100 ∧
      (v = 100 ↔ 200 * path.milestones.length ≤
        200 * pr.completed_milestones.length + path.milestones.length) := by
  have hm0 : path.milestones.length ≠ 0 := by
    simpa [List.length_eq_zero] using hm
  have hcm : pr.completed_milestones.length ≤ path.milestones.length := by
    have h1 := List.toFinset_card_of_nodup hnd
    have h2 : pr.completed_milestones.toFinset ⊆
        (path.milestones.map (fun m => m.id)).toFinset := by
      intro x hx
      rw [List.mem_toFinset] at hx ⊢
      exact hsub x hx
    have h3 := Finset.card_le_card h2
    have h4 := List.toFinset_card_le (path.milestones.map (fun m => m.id))
    rw [List.length_map] at h4
    omega
  have hc : pr.completed_milestones.length < 2 ^ 32 :=
    lt_of_le_of_lt hcm hsize
  refine ⟨jsRound (fl (fl ((pr.completed_milestones.length : ℚ) /
      (path.milestones.length : ℚ)) * 100)), ?_, ?_, ?_, ?_⟩
  · simp only [Dashboard.getPathProgress, hpr, hpath]
    rw [if_neg hm0]
  · exact jsPercent_nonneg _ _
  · exact jsPercent_le_100 _ _ hm0 hcm
  · exact jsPercent_eq_100_iff _ _ hm0 hcm hc

/-- **C1** witness: a record completing 1 of 2 milestones satisfies all
hypotheses and yields a percentage in range. -/
theorem getPathProgress_range_and_100_witness :
    ([halfRecord].find? (fun p => p.career_path_id == "p") = some halfRecord ∧
     [twoPath].find? (fun p => p.id == "p") = some twoPath ∧
     twoPath.milestones ≠ [] ∧
     twoPath.milestones.length < 2 ^ 32 ∧
     (∀ x ∈ halfRecord.completed_milestones,
       x ∈ twoPath.milestones.map (fun m => m.id)) ∧
     halfRecord.completed_milestones.Nodup) ∧
    (∃ v : ℤ, Dashboard.getPathProgress [halfRecord] [twoPath] "p" = some v ∧
      0 ≤ v ∧ v ≤ 100 ∧
      (v = 100 ↔ 200 * twoPath.milestones.length ≤
        200 * halfRecord.completed_milestones.length +
          twoPath.milestones.length)) :=
  ⟨⟨by decide, by decide, by decide, by decide, by decide, by decide⟩,
   getPathProgress_range_and_100 [halfRecord] [twoPath] "p" halfRecord twoPath
     (by decide) (by decide) (by decide) (by decide) (by decide) (by decide)⟩

set_option maxRecDepth 8000 in
/-- **C1** counterexample: completing 199 of 200 milestones (a subset of
the path's milestones) already rounds to 100 even though the counts
differ, refuting the claimed "equals 100 only if counts are equal". -/
theorem getPathProgress_round_up_cex :
    Dashboard.getPathProgress [cexRecord] [cexPath] "p" = some 100 ∧
    cexRecord.completed_milestones.length ≠ cexPath.milestones.length ∧
    (∀ x ∈ cexRecord.completed_milestones,
      x ∈ cexPath.milestones.map (fun m => m.id)) := by
  refine ⟨?_, by simp [cexRecord, cexPath], ?_⟩
  · have h1 : [cexRecord].find? (fun p => p.career_path_id == "p") =
        some cexRecord := rfl
    have h2 : [cexPath].find? (fun p => p.id == "p") = some cexPath := rfl
    simp only [Dashboard.getPathProgress, h1, h2, cexRecord, cexPath,
      List.length_replicate]
    norm_num [pct_tie]
  · intro x hx
    simp only [cexRecord, List.mem_replicate] at hx
    simp only [cexPath, List.mem_map]
    exact ⟨⟨"m0", 1⟩, by simp [List.mem_replicate], by simp [hx.2]⟩

/-- **C4** (amended).  When a progress record and a catalog path (with at
least one milestone, which the spec's division presupposes, and a
completed count below the JavaScript array-length bound `2 ^ 32`) match
the identifier, `getPathProgress` returns an integer within one half of
the completed/total ratio times 100 — a nearest integer to the exact
percentage, with half-integer ties resolved by the double pipeline
rather than always upward (see the counterexample: 23 of 40 yields 57,
not the half-up 58); when no progress record matches, it returns 0. -/
theorem getPathProgress_nearest (up : List ProgressRecord)
    (cp : List CareerPath) (pid : String) :
    (∀ pr path,
      up.find? (fun p => p.career_path_id == pid) = some pr →
      cp.find? (fun p => p.id == pid) = some path →
      path.milestones ≠ [] →
      pr.completed_milestones.length < 2 ^ 32 →
      ∃ v : ℤ, Dashboard.getPathProgress up cp pid = some v ∧
        |(v : ℚ) - (pr.completed_milestones.length : ℚ) /
          (path.milestones.length : ℚ) * 100| ≤ 1 / 2) ∧
    (up.find? (fun p => p.career_path_id == pid) = none →
      Dashboard.getPathProgress up cp pid = some 0) := by
  constructor
  · intro pr path hpr hpath hm hc
    have hm0 : path.milestones.length ≠ 0 := by
      simpa [List.length_eq_zero] using hm
    refine ⟨jsRound (fl (fl ((pr.completed_milestones.length : ℚ) /
        (path.milestones.length : ℚ)) * 100)), ?_,
      jsPercent_nearest _ _ hm0 hc⟩
    simp only [Dashboard.getPathProgress, hpr, hpath]
    rw [if_neg hm0]
  · intro hpr
    simp only [Dashboard.getPathProgress, hpr]

/-- **C4** witness: a found record (1 of 2 milestones) yields the rounded
formula, and an unmatched identifier yields 0. -/
theorem getPathProgress_nearest_witness :
    ([halfRecord].find? (fun p => p.career_path_id == "p") = some halfRecord ∧
     [twoPath].find? (fun p => p.id == "p") = some twoPath ∧
     twoPath.milestones ≠ [] ∧
     halfRecord.completed_milestones.length < 2 ^ 32 ∧
     (∃ v : ℤ, Dashboard.getPathProgress [halfRecord] [twoPath] "p" =
        some v ∧
       |(v : ℚ) - (halfRecord.completed_milestones.length : ℚ) /
         (twoPath.milestones.length : ℚ) * 100| ≤ 1 / 2)) ∧
    (([] : List ProgressRecord).find? (fun p => p.career_path_id == "q") =
       none ∧
     Dashboard.getPathProgress [] [twoPath] "q" = some 0) :=
  ⟨⟨by decide, by decide, by decide, by decide,
    (getPathProgress_nearest [halfRecord] [twoPath] "p").1 halfRecord twoPath
      (by decide) (by decide) (by decide) (by decide)⟩,
   ⟨rfl, (getPathProgress_nearest [] [twoPath] "q").2 rfl⟩⟩

set_option maxRecDepth 4000 in
/-- **C4** counterexample: at 23 completed of 40 milestones the program
returns 57 — the double product `(23/40)*100` falls strictly below the
exact 57.5 — although both the half-up integer form and `Math.round`
applied to the exact ratio give 58, refuting the claim under
`Math.round`'s own tie convention. -/
theorem getPathProgress_tie_down_cex :
    Dashboard.getPathProgress [cex40Record] [cex40Path] "p" = some 57 ∧
    Dashboard.roundedPercent 23 40 = 58 ∧
    jsRound ((23 : ℚ) / 40 * 100) = 58 := by
  refine ⟨?_, by decide, by unfold jsRound; norm_num⟩
  have h1 : [cex40Record].find? (fun p => p.career_path_id == "p") =
      some cex40Record := rfl
  have h2 : [cex40Path].find? (fun p => p.id == "p") = some cex40Path := rfl
  simp only [Dashboard.getPathProgress, h1, h2, cex40Record, cex40Path,
    List.length_replicate]
  norm_num [pct_23_40]

/-- **C10**.  When the career-path identifier has no entry in the catalog,
`getPathProgress` returns 0 without evaluating any percentage, whether or
not a progress record matches. -/
theorem getPathProgress_missing_path (up : List ProgressRecord)
    (cp : List CareerPath) (pid : String)
    (hpath : cp.find? (fun p => p.id == pid) = none) :
    Dashboard.getPathProgress up cp pid = some 0 := by
  unfold Dashboard.getPathProgress
  cases hpr : up.find? (fun p => p.career_path_id == pid) with
  | none => rfl
  | some pr => rw [hpath]

/-- **C10** witness: a record exists for identifier `q` but the catalog
has no such path, and the result is 0. -/
theorem getPathProgress_missing_path_witness :
    ([onePath].find? (fun p => p.id == "q") = none) ∧
    Dashboard.getPathProgress
      [{ user_id := "u", career_path_id := "q", completed_milestones := ["x"] }]
      [onePath] "q" = some 0 :=
  ⟨by decide, getPathProgress_missing_path _ _ _ (by decide)⟩

/-- **C2** (amended).  When no two progress records share a career-path
identifier, `getCompletedCount` is bounded by the number of distinct
career-path identifiers in the progress list; with duplicated records the
bound fails because the fold counts every record (see the
counterexample), and only the record-count bound
`getCompletedCount ≤ length` survives unconditionally. -/
theorem getCompletedCount_le_distinct (up : List ProgressRecord)
    (cp : List CareerPath)
    (hnd : (up.map (fun p => p.career_path_id)).Nodup) :
    Dashboard.getCompletedCount up cp ≤
      ((up.map (fun p => p.career_path_id)).dedup).length := by
  rw [List.Nodup.dedup hnd, List.length_map]
  exact getCompletedCount_le_length up cp

/-- **C2** witness: the three-record example has pairwise distinct path
identifiers and satisfies the bound. -/
theorem getCompletedCount_le_distinct_witness :
    ((exProgress.map (fun p => p.career_path_id)).Nodup) ∧
    Dashboard.getCompletedCount exProgress exPaths ≤
      ((exProgress.map (fun p => p.career_path_id)).dedup).length :=
  ⟨by decide, getCompletedCount_le_distinct exProgress exPaths (by decide)⟩

/-- **C2** counterexample: duplicating one complete record makes the fold
count 2 while only one distinct career-path identifier occurs. -/
theorem getCompletedCount_duplicate_cex :
    Dashboard.getCompletedCount [oneRecord, oneRecord] [onePath] = 2 ∧
    (([oneRecord, oneRecord].map (fun p => p.career_path_id)).dedup).length
      = 1 := by
  decide

/-- **C5**.  The spec's worked example: milestone counts {4, 5, 2} with
{4, 2, 2} completed give percentages {100, 40, 100}, completed count 2 and
average 80; the average divides by the number of progress records, so
adding a never-started catalog path leaves it at 80. -/
theorem dashboard_example_stats :
    Dashboard.getPathProgress exProgress exPaths "p1" = some 100 ∧
    Dashboard.getPathProgress exProgress exPaths "p2" = some 40 ∧
    Dashboard.getPathProgress exProgress exPaths "p3" = some 100 ∧
    Dashboard.getCompletedCount exProgress exPaths = 2 ∧
    Dashboard.averageProgress exProgress exPaths = some 80 ∧
    Dashboard.averageProgress exProgress (exPaths ++ [exExtraPath]) =
      some 80 := by
  have h1 : Dashboard.getPathProgress exProgress exPaths "p1" = some 100 := by
    have f1 : exProgress.find? (fun p => p.career_path_id == "p1") =
        some { user_id := "u", career_path_id := "p1",
               completed_milestones := ["a1", "a2", "a3", "a4"] } := rfl
    have f2 : exPaths.find? (fun p => p.id == "p1") =
        some { id := "p1",
               milestones := [⟨"a1", 1⟩, ⟨"a2", 1⟩, ⟨"a3", 1⟩, ⟨"a4", 1⟩] } :=
      rfl
    simp only [Dashboard.getPathProgress, f1, f2]
    norm_num [pct_one]
  have h2 : Dashboard.getPathProgress exProgress exPaths "p2" = some 40 := by
    have f1 : exProgress.find? (fun p => p.career_path_id == "p2") =
        some { user_id := "u", career_path_id := "p2",
               completed_milestones := ["b1", "b2"] } := rfl
    have f2 : exPaths.find? (fun p => p.id == "p2") =
        some { id := "p2",
               milestones := [⟨"b1", 1⟩, ⟨"b2", 1⟩, ⟨"b3", 1⟩, ⟨"b4", 1⟩,
                 ⟨"b5", 1⟩] } := rfl
    simp only [Dashboard.getPathProgress, f1, f2]
    norm_num [pct_two_fifths]
  have h3 : Dashboard.getPathProgress exProgress exPaths "p3" = some 100 := by
    have f1 : exProgress.find? (fun p => p.career_path_id == "p3") =
        some { user_id := "u", career_path_id := "p3",
               completed_milestones := ["c1", "c2"] } := rfl
    have f2 : exPaths.find? (fun p => p.id == "p3") =
        some { id := "p3", milestones := [⟨"c1", 1⟩, ⟨"c2", 1⟩] } := rfl
    simp only [Dashboard.getPathProgress, f1, f2]
    norm_num [pct_one]
  have hsum : Dashboard.progressSum exProgress exPaths exProgress =
      some 240 := by
    have h1' := h1
    have h2' := h2
    have h3' := h3
    simp only [Dashboard.progressSum, exProgress] at h1' h2' h3' ⊢
    simp only [List.foldl_cons, List.foldl_nil, h1', h2', h3']
    norm_num
  have havg : Dashboard.averageProgress exProgress exPaths = some 80 := by
    simp only [Dashboard.averageProgress, hsum]
    rw [if_neg (by decide)]
    norm_num [fl_eighty, jsRound, exProgress]
  refine ⟨h1, h2, h3, by decide, havg, ?_⟩
  have g1 : Dashboard.getPathProgress exProgress (exPaths ++ [exExtraPath])
      "p1" = some 100 := by
    have f1 : exProgress.find? (fun p => p.career_path_id == "p1") =
        some { user_id := "u", career_path_id := "p1",
               completed_milestones := ["a1", "a2", "a3", "a4"] } := rfl
    have f2 : (exPaths ++ [exExtraPath]).find? (fun p => p.id == "p1") =
        some { id := "p1",
               milestones := [⟨"a1", 1⟩, ⟨"a2", 1⟩, ⟨"a3", 1⟩, ⟨"a4", 1⟩] } :=
      rfl
    simp only [Dashboard.getPathProgress, f1, f2]
    norm_num [pct_one]
  have g2 : Dashboard.getPathProgress exProgress (exPaths ++ [exExtraPath])
      "p2" = some 40 := by
    have f1 : exProgress.find? (fun p => p.career_path_id == "p2") =
        some { user_id := "u", career_path_id := "p2",
               completed_milestones := ["b1", "b2"] } := rfl
    have f2 : (exPaths ++ [exExtraPath]).find? (fun p => p.id == "p2") =
        some { id := "p2",
               milestones := [⟨"b1", 1⟩, ⟨"b2", 1⟩, ⟨"b3", 1⟩, ⟨"b4", 1⟩,
                 ⟨"b5", 1⟩] } := rfl
    simp only [Dashboard.getPathProgress, f1, f2]
    norm_num [pct_two_fifths]
  have g3 : Dashboard.getPathProgress exProgress (exPaths ++ [exExtraPath])
      "p3" = some 100 := by
    have f1 : exProgress.find? (fun p => p.career_path_id == "p3") =
        some { user_id := "u", career_path_id := "p3",
               completed_milestones := ["c1", "c2"] } := rfl
    have f2 : (exPaths ++ [exExtraPath]).find? (fun p => p.id == "p3") =
        some { id := "p3", milestones := [⟨"c1", 1⟩, ⟨"c2", 1⟩] } := rfl
    simp only [Dashboard.getPathProgress, f1, f2]
    norm_num [pct_one]
  have hsum2 : Dashboard.progressSum exProgress (exPaths ++ [exExtraPath])
      exProgress = some 240 := by
    have g1' := g1
    have g2' := g2
    have g3' := g3
    simp only [Dashboard.progressSum, exProgress] at g1' g2' g3' ⊢
    simp only [List.foldl_cons, List.foldl_nil, g1', g2', g3']
    norm_num
  simp only [Dashboard.averageProgress, hsum2]
  rw [if_neg (by decide)]
  norm_num [fl_eighty, jsRound, exProgress]

/-- **C3**.  In every answering state reachable from the initial one by
the wizard operations, the Next button is disabled exactly when the
current slot is empty, and (outside the submitting state) the Submit
button is disabled exactly when some slot over the full question list is
empty — the length-equality check coincides with slot-fullness because
reachable answer arrays are hole-free prefixes. -/
theorem quiz_buttons_iff (questions : List Quiz.QuizQuestion) (cur : Nat)
    (answers : List (Option Quiz.QuizAnswer))
    (h : Quiz.Reachable questions cur answers) :
    (Quiz.nextDisabled ⟨questions, cur, answers, false, false, none⟩ = true ↔
      Quiz.getSlot answers cur = none) ∧
    (Quiz.submitDisabled ⟨questions, cur, answers, false, false, none⟩ = true ↔
      ∃ j < questions.length, Quiz.getSlot answers j = none) := by
  obtain ⟨h1, h2, h3⟩ := reachable_inv h
  constructor
  · unfold Quiz.nextDisabled
    exact Option.isNone_iff_eq_none
  · unfold Quiz.submitDisabled
    simp only [Bool.or_false, bne_iff_ne, ne_eq]
    constructor
    · intro hne
      exact ⟨answers.length, by omega, getSlot_eq_none_of_le (le_refl _)⟩
    · rintro ⟨j, hj, hnone⟩ heq
      have hs := h3 j (by omega)
      rw [hnone] at hs
      simp at hs

/-- **C3** witness: the initial state of a two-question quiz is reachable
and satisfies both equivalences. -/
theorem quiz_buttons_iff_witness :
    Quiz.Reachable wQuestions 0 [] ∧
    ((Quiz.nextDisabled ⟨wQuestions, 0, [], false, false, none⟩ = true ↔
      Quiz.getSlot [] 0 = none) ∧
     (Quiz.submitDisabled ⟨wQuestions, 0, [], false, false, none⟩ = true ↔
      ∃ j < wQuestions.length, Quiz.getSlot [] j = none)) :=
  ⟨Quiz.Reachable.init, quiz_buttons_iff wQuestions 0 [] Quiz.Reachable.init⟩

/-- **C6**.  With every slot filled, a rejected submission leaves the
wizard in the answering view with `answers`, `currentQuestion` and
`results` unchanged, `submitting` reset to false, and the failure alert
shown; a successful submission stores the server payload in `results`,
switching the render to the results view. -/
theorem quiz_submit_outcomes (s : Quiz.QuizState) (payload : Quiz.QuizResults)
    (hres : s.results = none) (hload : s.loading = false)
    (hlen : s.answers.length = s.questions.length) :
    ((Quiz.handleSubmit s .err).1.answers = s.answers ∧
     (Quiz.handleSubmit s .err).1.currentQuestion = s.currentQuestion ∧
     (Quiz.handleSubmit s .err).1.results = none ∧
     (Quiz.handleSubmit s .err).1.submitting = false ∧
     (Quiz.handleSubmit s .err).2 =
       some "Failed to submit quiz. Please try again." ∧
     Quiz.renderView (Quiz.handleSubmit s .err).1 = .answeringView) ∧
    ((Quiz.handleSubmit s (.ok payload)).1.results = some payload ∧
     (Quiz.handleSubmit s (.ok payload)).1.answers = s.answers ∧
     (Quiz.handleSubmit s (.ok payload)).1.currentQuestion =
       s.currentQuestion ∧
     (Quiz.handleSubmit s (.ok payload)).2 = none ∧
     Quiz.renderView (Quiz.handleSubmit s (.ok payload)).1 =
       .resultsView) := by
  simp [Quiz.handleSubmit, Quiz.renderView, hres, hload, hlen]

/-- **C6** witness: a one-question state with its slot filled shows both
outcomes. -/
theorem quiz_submit_outcomes_witness :
    (wState.results = none ∧ wState.loading = false ∧
     wState.answers.length = wState.questions.length) ∧
    ((Quiz.handleSubmit wState .err).1.answers = wState.answers ∧
     (Quiz.handleSubmit wState .err).1.submitting = false ∧
     (Quiz.handleSubmit wState (.ok wPayload)).1.results = some wPayload) :=
  ⟨⟨rfl, rfl, rfl⟩,
   ⟨(quiz_submit_outcomes wState wPayload rfl rfl rfl).1.1,
    (quiz_submit_outcomes wState wPayload rfl rfl rfl).1.2.2.2.1,
    (quiz_submit_outcomes wState wPayload rfl rfl rfl).2.1⟩⟩

/-- **C7** (amended).  The badge lookup reads the fixed five-entry object
literal through the JavaScript prototype chain: `"path_master"` maps to
name "Path Master" and glyph 👑 with its static description and color,
and an identifier outside the enumerated set renders nothing only when
it is also not an own property name of `Object.prototype` — inherited
names such as `"toString"` pass the truthiness guard instead (see the
counterexample). -/
theorem achievement_badge_lookup :
    Achievements.ACHIEVEMENT_DATA "path_master" =
      .entry { name := "Path Master",
               description := "Complete an entire career path",
               icon := "👑", color := "#F59E0B" } ∧
    ∀ (achievementId size : String) (showTooltip : Bool),
      achievementId ≠ "first_step" → achievementId ≠ "halfway_hero" →
      achievementId ≠ "path_master" → achievementId ≠ "speed_demon" →
      achievementId ≠ "multi_path" →
      Achievements.OBJECT_PROTOTYPE_KEYS.contains achievementId = false →
      Achievements.AchievementBadge achievementId size showTooltip =
        .nullRender := by
  constructor
  · decide
  · intro aid size tip h1 h2 h3 h4 h5 hp
    unfold Achievements.AchievementBadge Achievements.ACHIEVEMENT_DATA
    rw [if_neg h1, if_neg h2, if_neg h3, if_neg h4, if_neg h5,
      if_neg (by simpa using hp)]

/-- **C7** witness: an identifier that is neither an own key nor an
`Object.prototype` property name renders nothing. -/
theorem achievement_badge_lookup_witness :
    ("mystery" ≠ "first_step" ∧ "mystery" ≠ "halfway_hero" ∧
     "mystery" ≠ "path_master" ∧ "mystery" ≠ "speed_demon" ∧
     "mystery" ≠ "multi_path" ∧
     Achievements.OBJECT_PROTOTYPE_KEYS.contains "mystery" = false) ∧
    Achievements.AchievementBadge "mystery" "medium" true = .nullRender :=
  ⟨by decide,
   achievement_badge_lookup.2 "mystery" "medium" true (by decide) (by decide)
     (by decide) (by decide) (by decide) (by decide)⟩

/-- **C7** counterexample: `"toString"` lies outside the enumerated set,
yet the plain-object lookup finds the inherited `Object.prototype`
method — a truthy value — so the component renders a badge (with
undefined display data) instead of returning null. -/
theorem achievement_badge_proto_cex :
    Achievements.AchievementBadge "toString" "medium" true =
      .inheritedBadge ∧
    Achievements.AchievementBadge "toString" "medium" true ≠
      .nullRender ∧
    ("toString" ≠ "first_step" ∧ "toString" ≠ "halfway_hero" ∧
     "toString" ≠ "path_master" ∧ "toString" ≠ "speed_demon" ∧
     "toString" ≠ "multi_path") := by
  decide

/-- **C8**.  The Profile screen's certificates count is definitionally the
completed-paths count — the number of progress records whose
completed-milestone count equals the matching path's milestone count —
and not an independently fetched quantity. -/
theorem profile_certificates_eq_completed :
    ∀ (progress : List ProgressRecord) (achievements : List String)
      (paths : List CareerPath),
      (Profile.fetchStats progress achievements paths).certificatesCount =
        (Profile.fetchStats progress achievements paths).completedPaths ∧
      (Profile.fetchStats progress achievements paths).completedPaths =
        (progress.filter (fun p =>
          match paths.find? (fun cp => cp.id == p.career_path_id) with
          | some path =>
            p.completed_milestones.length = path.milestones.length
          | none => false)).length := by
  intro progress achievements paths
  exact ⟨rfl, rfl⟩

/-- **C9**.  A signup submission with mismatched passwords, or with a
matching but short password, sets the corresponding inline error and
returns before the signup request, leaving the loading flag false. -/
theorem signup_validation (password confirmPassword : String) :
    (password ≠ confirmPassword →
      Signup.handleSubmit password confirmPassword =
        { error := some "Passwords do not match", loading := false,
          requested := false }) ∧
    (password = confirmPassword → password.length < 6 →
      Signup.handleSubmit password confirmPassword =
        { error := some "Password must be at least 6 characters",
          loading := false, requested := false }) := by
  constructor
  · intro h
    unfold Signup.handleSubmit
    rw [if_pos h]
  · intro h hlen
    unfold Signup.handleSubmit
    rw [if_neg (by simp [h]), if_pos hlen]

/-- **C9** witness: a mismatched pair and a short matching password both
produce their inline error without a request. -/
theorem signup_validation_witness :
    ("abcdef" ≠ "abcdeg" ∧
     Signup.handleSubmit "abcdef" "abcdeg" =
       { error := some "Passwords do not match", loading := false,
         requested := false }) ∧
    ("abc" = "abc" ∧ "abc".length < 6 ∧
     Signup.handleSubmit "abc" "abc" =
       { error := some "Password must be at least 6 characters",
         loading := false, requested := false }) :=
  ⟨⟨by decide, (signup_validation "abcdef" "abcdeg").1 (by decide)⟩,
   ⟨rfl, by decide, (signup_validation "abc" "abc").2 rfl (by decide)⟩⟩

end App
